import Mathlib

/-!
Verification development for the `nyx` panel layer (`src/util/panel.py`).

The Python source is shallowly embedded below:
* strings are `List Char`, Python ints are `Int` (curses attribute bitmasks,
  which are nonnegative, are `Nat`);
* the `addfstr` scanning loops become fueled structural recursions; the fuel
  is large enough that exhaustion is provably impossible (see
  `findTagF_ne_none` and `scanLoopF_ne_fuel`), except that a genuine
  infinite loop of the Python code is represented by an explicit `div`
  marker (see the comment at `findTagF`);
* the mutable `Panel` object becomes an explicit `PanelState` record and
  each method a state transformer;
* the curses subwindow handle becomes an `Option Win` record snapshot of
  what `getmaxyx`/`getparyx` would report;
* `ValueError`/`KeyError` raising paths return `Except`-style results.
-/

set_option autoImplicit false

namespace NyxPanel

/-! ## curses attribute constants (values of the ncurses bitmasks) -/

def A_NORMAL : Nat := 0
def A_BOLD : Nat := 2097152
def A_UNDERLINE : Nat := 131072
def A_STANDOUT : Nat := 65536

/-- Modelled from the spec: `uiTools.COLOR_LIST` is not under `src/`; the
spec says the tag table holds "one tag per named color" from "an externally
enumerated set of color names", stable for the process lifetime.  We use the
standard eight curses color names. -/
def COLOR_LIST : List String :=
  ["red", "green", "yellow", "blue", "cyan", "magenta", "black", "white"]

/-- Modelled from the spec: `uiTools.getColor` (not under `src/`) resolves a
color name to a curses color-pair attribute; distinct nonzero value per
name (curses `COLOR_PAIR(n)` is `n * 256`). -/
def getColor (label : String) : Nat := 256 * (1 + COLOR_LIST.indexOf label)

/-- `FORMAT_TAGS` from panel.py: tag string mapped to the attribute the
(functor, argument) pair evaluates to (`_noOp(arg) = arg` for the style
tags, `getColor(label)` for the color tags). -/
def FORMAT_TAGS : List (List Char × Nat) :=
  [("<b>".data, A_BOLD), ("<u>".data, A_UNDERLINE), ("<h>".data, A_STANDOUT)]
    ++ COLOR_LIST.map (fun c => (("<" ++ c ++ ">").data, getColor c))

/-- keys of an association list (Python `dict.keys()` / first components). -/
def tagKeys (tags : List (List Char × Nat)) : List (List Char) :=
  tags.map Prod.fst

/-- association-list lookup, first matching key wins (Python `dict[k]` as an
`Option`). -/
def lookupTag : List (List Char × Nat) → List Char → Option Nat
  | [], _ => none
  | (k, v) :: t, q => if k = q then some v else lookupTag t q

/-! ## the `addfstr` scanner -/

/-- search for `c` in `l`, reporting positions offset by `i`. -/
def findFromAux (c : Char) : List Char → Nat → Option Nat
  | [], _ => none
  | x :: t, i => if x = c then some i else findFromAux c t (i + 1)

/-- Python `str.find(c, start)`: index of the first occurrence of `c` at
position `≥ start`, `none` for `-1`. -/
def findFrom (c : Char) (l : List Char) (start : Nat) : Option Nat :=
  findFromAux c (l.drop start) start

/-- Python slice `l[a:b]` for `0 ≤ a ≤ b`. -/
def pySlice (l : List Char) (a b : Nat) : List Char :=
  (l.drop a).take (b - a)

/-- Outcome of the inner tag-search loop of `addfstr` (panel.py lines
516-530). -/
inductive FindRes where
  | found (tag : List Char) (ts te : Nat)
  | noTag
  | div
  deriving DecidableEq

/-- The inner loop of `addfstr`: starting the search at `tmpChecked`, find
the next angle-bracket span that is a member of `expected`; spans that are
not members are skipped (`tmpChecked = tagEnd`).

Faithfulness notes:
* when no `<` remains, Python breaks with `tagStart == -1` (`noTag`);
* when a `<` is found at `ts` but no `>` follows, Python computes
  `tagEnd = str.find(">", ts) + 1 = 0`; the span `msg[ts:0]` is then the
  empty string.  If the empty string is a member of `expected` Python picks
  it as the next tag (`found [] ts 0`); otherwise Python sets
  `tmpChecked = 0` and, since the skipping path from position `0` back to
  `ts` is a deterministic function of the (unchanged) string and tag sets,
  the loop revisits exactly the same states forever.  That divergence is
  denoted by `div`.
* the fuel argument only bounds the recursion; `findTagF_ne_none` below
  shows the fuel used by the outer loop can never run out. -/
def findTagF (expected : List (List Char)) (msg : List Char) :
    Nat → Nat → Option FindRes
  | 0, _ => none
  | fuel + 1, tmpChecked =>
    match findFrom '<' msg tmpChecked with
    | none => some .noTag
    | some ts =>
      match findFrom '>' msg ts with
      | none =>
        if ([] : List Char) ∈ expected then some (.found [] ts 0) else some .div
      | some j =>
        let te := j + 1
        let tag := pySlice msg ts te
        if tag ∈ expected then some (.found tag ts te)
        else findTagF expected msg fuel te

/-- State of the outer scanning loop of `addfstr` (panel.py lines 507-558).
`draws` records every `win.addstr(y, x, clippedText, attr)` call issued, and
`trace` records every consumed tag together with the `expectedCloseTags`
stack at the moment of consumption. -/
structure ScanState where
  x : Int
  formatting : List Nat
  expected : List (List Char)
  unused : List Char
  draws : List (Int × List Char × Nat)
  trace : List (List Char × List (List Char))
  deriving DecidableEq

/-- Result of running the outer loop: normal exit, divergence of the inner
loop, or fuel exhaustion (ruled out by `scanLoopF_ne_fuel`). -/
inductive ScanOut where
  | fin (st : ScanState)
  | div
  | fuel
  deriving DecidableEq

/-- `attr = 0; for format in formatting: attr |= format` -/
def foldAttr (formatting : List Nat) : Nat :=
  formatting.foldl (fun a f => a ||| f) 0

/-- One iteration body plus loop of `while self.maxX > x and len(unusedMsg) > 0`.
Matches panel.py lines 512-558; text before the consumed tag is drawn
clipped to `maxX - x - 1` columns, the cursor advances by the unclipped
length, and the tag opens (append to both stacks) or closes (remove by
value from both stacks, Python `list.remove` = `List.erase`). -/
def scanLoopF (tags : List (List Char × Nat)) (maxX : Int) :
    Nat → ScanState → ScanOut
  | 0, _ => .fuel
  | fuel + 1, st =>
    if maxX > st.x ∧ st.unused ≠ [] then
      match findTagF (tagKeys tags ++ st.expected) st.unused
          (st.unused.length + 1) 0 with
      | none => .fuel
      | some .div => .div
      | some .noTag =>
        let seg := st.unused
        let clip := seg.take (maxX - st.x - 1).toNat
        scanLoopF tags maxX fuel
          { st with
            unused := []
            draws := st.draws ++ [(st.x, clip, foldAttr st.formatting)]
            x := st.x + seg.length }
      | some (.found tag ts te) =>
        let seg := st.unused.take ts
        let clip := seg.take (maxX - st.x - 1).toNat
        let rest := st.unused.drop te
        let isClose : Bool := decide (tag.take 2 = ['<', '/'])
        let formatTag := if isClose then '<' :: tag.drop 2 else tag
        let formatMatch := (lookupTag tags formatTag).getD 0
        if isClose then
          scanLoopF tags maxX fuel
            { x := st.x + seg.length
              formatting := st.formatting.erase formatMatch
              expected := st.expected.erase tag
              unused := rest
              draws := st.draws ++ [(st.x, clip, foldAttr st.formatting)]
              trace := st.trace ++ [(tag, st.expected)] }
        else
          scanLoopF tags maxX fuel
            { x := st.x + seg.length
              formatting := st.formatting ++ [formatMatch]
              expected := st.expected ++ ['<' :: '/' :: tag.drop 1]
              unused := rest
              draws := st.draws ++ [(st.x, clip, foldAttr st.formatting)]
              trace := st.trace ++ [(tag, st.expected)] }
    else .fin st

/-- Result of `Panel.addfstr`: guard not taken (`skip`), normal return
(`ok`), `ValueError` for unclosed tags (`err`, carrying
`expectedCloseTags` in stack order), or inner-loop divergence (`div`).
`fuel` is impossible for well-formed tag tables (`addfstr_ne_fuel`). -/
inductive AddfstrRes where
  | skip
  | ok (st : ScanState)
  | err (unclosed : List (List Char)) (st : ScanState)
  | div
  | fuel
  deriving DecidableEq

/-- Initial scanner state for `addfstr y x msg`. -/
def initScan (x : Int) (msg : List Char) : ScanState :=
  { x := x, formatting := [A_NORMAL], expected := [], unused := msg
    draws := [], trace := [] }

/-- `Panel.addfstr` (panel.py lines 484-565).  `hasWin` and `maxY > y` model
the `if self.win and self.maxY > y` guard; after the loop, a `ValueError`
is raised iff `expectedCloseTags` is nonempty and `unusedMsg` is empty. -/
def addfstr (tags : List (List Char × Nat)) (maxY maxX : Int) (hasWin : Bool)
    (y x : Int) (msg : List Char) : AddfstrRes :=
  if hasWin ∧ maxY > y then
    match scanLoopF tags maxX (msg.length + 1) (initScan x msg) with
    | .fuel => .fuel
    | .div => .div
    | .fin st =>
      if st.expected ≠ [] ∧ st.unused = [] then .err st.expected st else .ok st
  else .skip

/-- The consumed-tag trace of an `addfstr` call (empty when the call was
skipped or diverged). -/
def addfstrTrace (tags : List (List Char × Nat)) (maxY maxX : Int)
    (hasWin : Bool) (y x : Int) (msg : List Char) :
    List (List Char × List (List Char)) :=
  match addfstr tags maxY maxX hasWin y x msg with
  | .ok st => st.trace
  | .err _ st => st.trace
  | _ => []

/-- The final cursor position of an `addfstr` call. -/
def addfstrFinalX (tags : List (List Char × Nat)) (maxY maxX : Int)
    (hasWin : Bool) (y x : Int) (msg : List Char) : Option Int :=
  match addfstr tags maxY maxX hasWin y x msg with
  | .ok st => some st.x
  | .err _ st => some st.x
  | _ => none

/-! ## association-list helpers for the attribute dictionaries -/

/-- lookup in an association list keyed by attribute name (Python
`dict[k]` / `dict.get(k)` as an `Option`). -/
def alookup {β : Type} (k : String) : List (String × β) → Option β
  | [] => none
  | (k', v) :: t => if k' = k then some v else alookup k t

/-- Python `d[k] = v`: replace the first binding of `k`, or append. -/
def dictSet {β : Type} (k : String) (v : β) : List (String × β) → List (String × β)
  | [] => [(k, v)]
  | (k', v') :: t => if k' = k then (k, v) :: t else (k', v') :: dictSet k v t

/-! ## the `Panel` state -/

/-- The parent curses window, reduced to what the Panel reads from it:
`getmaxyx()` (here `rows`, `cols`) plus an identity for the `!=` test in
`setParent`. -/
structure Parent where
  pid : Nat
  rows : Int
  cols : Int
  deriving DecidableEq

/-- A curses subwindow handle, reduced to what the Panel reads from it:
`getmaxyx()` (`maxY`, `maxX`) and `getparyx()` (`pary`, `parx`). -/
structure Win where
  maxY : Int
  maxX : Int
  pary : Int
  parx : Int
  deriving DecidableEq

/-- The mutable fields of a `Panel` instance (panel.py `__init__`), plus the
attribute dictionary `attrs` standing for the tracked part of
`self.__dict__` (attribute values are modelled as `Int`). -/
structure PanelState where
  parent : Parent
  visible : Bool
  top : Int
  left : Int
  height : Int
  width : Int
  win : Option Win
  maxY : Int
  maxX : Int
  paused : Bool
  pauseAttr : List String
  pauseBuffer : List (String × Option Int)
  attrs : List (String × Int)
  pauseTime : Int
  deriving DecidableEq

/-- `Panel.__init__(parent, name, top, height, width)` with subclass-set
attributes still absent (they arrive through `setAttrVal`). -/
def initPanel (parent : Parent) (top height width : Int) : PanelState :=
  { parent := parent, visible := false, top := top, left := 0
    height := height, width := width, win := none, maxY := -1, maxX := -1
    paused := false, pauseAttr := [], pauseBuffer := [], attrs := []
    pauseTime := -1 }

/-- `Panel.getPreferredSize` (panel.py lines 309-322). -/
def getPreferredSize (s : PanelState) : Int × Int :=
  let nh := max 0 (s.parent.rows - s.top)
  let nw := max 0 (s.parent.cols - s.left)
  let nh := if s.height ≠ -1 then min nh s.height else nh
  let nw := if s.width ≠ -1 then min nw s.width else nw
  (nh, nw)

/-- `Panel._resetSubwindow` (panel.py lines 664-704): returns the updated
state and whether a new subwindow instance was created.  The recreated
window is `parent.subwin(newHeight, newWidth, self.top, self.left)`, whose
`getmaxyx` reports the requested size and whose `getparyx` reports the
requested offsets. -/
def resetSubwindow (s : PanelState) : PanelState × Bool :=
  let nh := (getPreferredSize s).1
  let nw := (getPreferredSize s).2
  if nh = 0 then (s, false)
  else
    let recreate :=
      match s.win with
      | none => true
      | some w =>
        decide (w.maxY < nh)          -- check for vertical growth
          || decide (s.top > w.pary)  -- check for displacement
          || decide (w.maxX > nw) || decide (w.maxY > nh) -- shrinking
    if recreate then
      ({ s with win := some ⟨nh, nw, s.top, s.left⟩ }, true)
    else (s, false)

/-! ### geometry setters (panel.py lines 121-131, 247-257, 266-307) -/

def setParent (parent : Parent) (s : PanelState) : PanelState :=
  if s.parent ≠ parent then { s with parent := parent, win := none } else s

def setVisible (isVisible : Bool) (s : PanelState) : PanelState :=
  { s with visible := isVisible }

def setTop (top : Int) (s : PanelState) : PanelState :=
  if s.top ≠ top then { s with top := top, win := none } else s

def setLeft (left : Int) (s : PanelState) : PanelState :=
  if s.left ≠ left then { s with left := left, win := none } else s

def setHeight (height : Int) (s : PanelState) : PanelState :=
  if s.height ≠ height then { s with height := height, win := none } else s

def setWidth (width : Int) (s : PanelState) : PanelState :=
  if s.width ≠ width then { s with width := width, win := none } else s

/-! ### redraw (panel.py lines 358-400) -/

/-- Outcome of a `redraw` call: the updated panel state, the number of
holds this call retains on the global curses lock after returning
(`lock` was the caller's count before the call), whether the content
callback `draw()` was invoked, and the exception (if any) propagating out
of the call. -/
structure RedrawOut where
  st : PanelState
  lock : Nat
  drew : Bool
  res : Except Unit Unit

/-- `Panel.redraw(forceRedraw, block)`.  `cb` is the overridable `draw`
callback (its `Except` result models a drawing exception), `canAcquire`
is the outcome of `CURSES_LOCK.acquire(block)`, and `lock` counts the
lock holds of this thread.  The acquire/release pair mirrors the
`try`/`finally` of the source: the release happens on the normal path,
on the no-draw path and on the exception path alike. -/
def redraw (cb : Int → Int → Except Unit Unit) (canAcquire forceRedraw : Bool)
    (s : PanelState) (lock : Nat) : RedrawOut :=
  if s.visible = false then ⟨s, lock, false, .ok ()⟩  -- skipped if not visible
  else if (getPreferredSize s).1 = 0 then
    -- completely outside its parent: no-op
    ⟨{ s with win := none }, lock, false, .ok ()⟩
  else
    let rs := resetSubwindow s
    match rs.1.win with
    | none =>
      -- dead branch: `resetSubwindow_win_isSome` shows the subwindow is
      -- present whenever the preferred height is nonzero
      ⟨rs.1, lock, false, .ok ()⟩
    | some w =>
      -- the reset argument is disregarded after recreation or resize
      let force := forceRedraw || rs.2
        || decide (w.maxY ≠ rs.1.maxY) || decide (w.maxX ≠ rs.1.maxX)
      let s2 := { rs.1 with maxY := w.maxY, maxX := w.maxX }
      if canAcquire = false then ⟨s2, lock, false, .ok ()⟩
      else
        let held := lock + 1            -- CURSES_LOCK.acquire succeeded
        if force then
          match cb (w.maxX - 1) w.maxY with  -- erase, then draw(maxX-1, maxY)
          | .ok _ => ⟨s2, held - 1, true, .ok ()⟩      -- refresh; finally: release
          | .error e => ⟨s2, held - 1, true, .error e⟩ -- finally: release; re-raise
        else ⟨s2, held - 1, false, .ok ()⟩             -- refresh; finally: release

/-! ### pause tracker (panel.py lines 157-230) -/

/-- `Panel.copyAttr` (`copy.copy` of immutable ints is the identity). -/
def copyAttr (s : PanelState) (a : String) : Option Int :=
  alookup a s.attrs

/-- `Panel.setPauseAttr` (panel.py lines 157-176). -/
def setPauseAttr (a : String) (s : PanelState) : PanelState :=
  { s with pauseAttr := s.pauseAttr ++ [a]
           pauseBuffer := dictSet a (copyAttr s a) s.pauseBuffer }

/-- `Panel.getAttr` (panel.py lines 178-190): untracked attributes give
`None`; while paused, a missing pause-buffer entry would be a `KeyError`
(the `Except.error` case). -/
def getAttr (a : String) (s : PanelState) : Except Unit (Option Int) :=
  if a ∈ s.pauseAttr then
    if s.paused then
      match alookup a s.pauseBuffer with
      | some v => .ok v
      | none => .error ()
    else .ok (alookup a s.attrs)
  else .ok none

/-- the snapshot loop inside `setPaused`:
`for attr in self.pauseAttr: self.pauseBuffer[attr] = self.copyAttr(attr)`. -/
def snapshotAll (s : PanelState) : List (String × Option Int) :=
  s.pauseAttr.foldl (fun buf a => dictSet a (copyAttr s a) buf) s.pauseBuffer

/-- `Panel.setPaused(isPause, suppressRedraw)` (panel.py lines 204-230);
`now` stands for `time.time()`.  The trailing `self.redraw(True)` runs
the no-op base draw under an uncontended reentrant lock. -/
def setPaused (isPause suppressRedraw : Bool) (now : Int) (s : PanelState) :
    PanelState × Bool :=
  if isPause ≠ s.paused then
    let s1 := if isPause then { s with pauseTime := now } else s
    let s2 := { s1 with paused := isPause }
    let s3 := if isPause then { s2 with pauseBuffer := snapshotAll s2 } else s2
    let s4 := if suppressRedraw = false then
        (redraw (fun _ _ => .ok ()) true true s3 0).st
      else s3
    (s4, true)
  else (s, false)

/-- assignment to a tracked instance attribute (`self.attr = v`). -/
def setAttrVal (a : String) (v : Int) (s : PanelState) : PanelState :=
  { s with attrs := dictSet a v s.attrs }

/-- a sequence of attribute assignments. -/
def applyMuts (ms : List (String × Int)) (s : PanelState) : PanelState :=
  ms.foldl (fun t p => setAttrVal p.1 p.2 t) s

/-- Every panel state obtainable from a freshly constructed panel through
the public operations. -/
inductive Reachable : PanelState → Prop where
  | init (parent : Parent) (top height width : Int) :
      Reachable (initPanel parent top height width)
  | pauseAttrStep (s : PanelState) (a : String) :
      Reachable s → Reachable (setPauseAttr a s)
  | pausedStep (s : PanelState) (b supp : Bool) (now : Int) :
      Reachable s → Reachable (setPaused b supp now s).1
  | attrStep (s : PanelState) (a : String) (v : Int) :
      Reachable s → Reachable (setAttrVal a v s)
  | parentStep (s : PanelState) (p : Parent) :
      Reachable s → Reachable (setParent p s)
  | visibleStep (s : PanelState) (b : Bool) :
      Reachable s → Reachable (setVisible b s)
  | topStep (s : PanelState) (t : Int) :
      Reachable s → Reachable (setTop t s)
  | leftStep (s : PanelState) (l : Int) :
      Reachable s → Reachable (setLeft l s)
  | heightStep (s : PanelState) (h : Int) :
      Reachable s → Reachable (setHeight h s)
  | widthStep (s : PanelState) (w : Int) :
      Reachable s → Reachable (setWidth w s)
  | redrawStep (s : PanelState) (cb : Int → Int → Except Unit Unit)
      (acq f : Bool) (lock : Nat) :
      Reachable s → Reachable (redraw cb acq f s lock).st

/-! ### scroll bar (panel.py lines 612-662) -/

/-- `Panel.addScrollBar(top, bottom, size, drawTop, drawBottom)`: the list
of absolute rows on which a slider cell is drawn.  Arithmetic is Python's
(`/` is floor division, `Int.fdiv`).  Each slider cell goes through
`Panel.addstr(i + drawTop, 0, " ", ...)`, whose bounds guard
(`maxX > 0 and maxY > row`) is modelled in the filter. -/
def addScrollBar (maxY maxX : Int) (top bottom size drawTop drawBottomArg : Int) :
    List Int :=
  if maxY - drawTop < 2 then []  -- not enough room
  else
    let drawBottom := if drawBottomArg = -1 then maxY - 1
      else min drawBottomArg (maxY - 1)
    let sbH := drawBottom - drawTop
    let sliderTop0 := Int.fdiv (sbH * top) size
    let sliderSize := Int.fdiv (sbH * (bottom - top)) size
    -- ensures slider isn't at top or bottom unless really at those bounds
    let sliderTop1 := if top > 0 then max sliderTop0 1 else sliderTop0
    let sliderTop2 := if bottom ≠ size then
        min sliderTop1 (sbH - sliderSize - 2)
      else sliderTop1
    -- avoids the rounding error at the very bottom
    let sliderTop := if bottom = size then sbH - sliderSize - 1 else sliderTop2
    (List.range sbH.toNat).filterMap (fun (i : Nat) =>
      if sliderTop ≤ (i : Int) ∧ (i : Int) ≤ sliderTop + sliderSize
          ∧ 0 < maxX ∧ (i : Int) + drawTop < maxY then
        some ((i : Int) + drawTop)
      else none)

/-! ## helper lemmas: the scanner -/

theorem findFromAux_bounds {c : Char} {l : List Char} {i j : Nat}
    (h : findFromAux c l i = some j) : i ≤ j ∧ j < i + l.length := by
  induction l generalizing i with
  | nil => simp [findFromAux] at h
  | cons x t ih =>
    rw [findFromAux] at h
    split at h
    · cases h
      simp only [List.length_cons]
      omega
    · have := ih h
      simp only [List.length_cons]
      omega

theorem findFrom_bounds {c : Char} {l : List Char} {s j : Nat}
    (h : findFrom c l s = some j) : s ≤ j ∧ j < l.length := by
  unfold findFrom at h
  have hb := findFromAux_bounds h
  have hlen : (l.drop s).length = l.length - s := List.length_drop s l
  have hne : l.drop s ≠ [] := by
    intro hd
    rw [hd] at h
    simp [findFromAux] at h
  have : s < l.length := by
    by_contra hgt
    exact hne (List.drop_eq_nil_of_le (by omega))
  omega

theorem findTagF_found_mem {expected : List (List Char)} {msg : List Char}
    {fuel c : Nat} {t : List Char} {ts te : Nat}
    (h : findTagF expected msg fuel c = some (.found t ts te)) : t ∈ expected := by
  induction fuel generalizing c with
  | zero => simp [findTagF] at h
  | succ fuel ih =>
    simp only [findTagF] at h
    split at h
    · simp at h
    · split at h
      · split at h
        · rename_i hmem
          simp only [Option.some.injEq, FindRes.found.injEq] at h
          obtain ⟨h1, h2, h3⟩ := h
          subst h1
          exact hmem
        · simp at h
      · split at h
        · rename_i hmem
          simp only [Option.some.injEq, FindRes.found.injEq] at h
          obtain ⟨h1, h2, h3⟩ := h
          subst h1 h2 h3
          exact hmem
        · exact ih h

theorem findTagF_found_te {expected : List (List Char)} {msg : List Char}
    {fuel c : Nat} {t : List Char} {ts te : Nat}
    (h : findTagF expected msg fuel c = some (.found t ts te)) :
    t = [] ∨ 1 ≤ te := by
  induction fuel generalizing c with
  | zero => simp [findTagF] at h
  | succ fuel ih =>
    simp only [findTagF] at h
    split at h
    · simp at h
    · split at h
      · split at h
        · simp only [Option.some.injEq, FindRes.found.injEq] at h
          exact Or.inl h.1.symm
        · simp at h
      · split at h
        · simp only [Option.some.injEq, FindRes.found.injEq] at h
          omega
        · exact ih h

/-- The inner loop's fuel of `msg.length + 1` can never run out: each
skipped span advances `tmpChecked`, which is bounded by the message
length. -/
theorem findTagF_ne_none {expected : List (List Char)} {msg : List Char} :
    ∀ {fuel c : Nat}, msg.length - c < fuel →
      findTagF expected msg fuel c ≠ none := by
  intro fuel
  induction fuel with
  | zero => omega
  | succ fuel ih =>
    intro c hc
    simp only [findTagF]
    split
    · simp
    · split
      · split <;> simp
      · split
        · simp
        · rename_i x1 ts hts x2 j hj hmem
          have h1 := findFrom_bounds hts
          have h2 := findFrom_bounds hj
          exact ih (by omega)

theorem findTagF_found_te_le {expected : List (List Char)} {msg : List Char}
    {fuel c : Nat} {t : List Char} {ts te : Nat}
    (h : findTagF expected msg fuel c = some (.found t ts te)) :
    ts ≤ msg.length ∧ te ≤ msg.length := by
  induction fuel generalizing c with
  | zero => simp [findTagF] at h
  | succ fuel ih =>
    simp only [findTagF] at h
    split at h
    · simp at h
    · rename_i ts' hts'
      have h1 := findFrom_bounds hts'
      split at h
      · split at h
        · simp only [Option.some.injEq, FindRes.found.injEq] at h
          omega
        · simp at h
      · rename_i j hj
        have h2 := findFrom_bounds hj
        split at h
        · simp only [Option.some.injEq, FindRes.found.injEq] at h
          omega
        · exact ih h

/-- Once the outer loop exits normally, its guard is false. -/
theorem scanLoopF_fin_guard {tags : List (List Char × Nat)} {maxX : Int} :
    ∀ {fuel : Nat} {st st' : ScanState},
      scanLoopF tags maxX fuel st = .fin st' →
      ¬(maxX > st'.x ∧ st'.unused ≠ []) := by
  intro fuel
  induction fuel with
  | zero => intro st st' h; simp [scanLoopF] at h
  | succ fuel ih =>
    intro st st' h
    simp only [scanLoopF] at h
    split at h
    · split at h
      · simp at h
      · simp at h
      · exact ih h
      · split at h <;> exact ih h
    · rename_i hguard
      cases h
      exact hguard

/-- Consumed tags recorded by the scan are always members of the tag
vocabulary or of the expected-close stack current at consumption time. -/
theorem scanLoopF_trace_inv {tags : List (List Char × Nat)} {maxX : Int} :
    ∀ {fuel : Nat} {st st' : ScanState},
      (∀ e ∈ st.trace, e.1 ∈ tagKeys tags ∨ e.1 ∈ e.2) →
      scanLoopF tags maxX fuel st = .fin st' →
      ∀ e ∈ st'.trace, e.1 ∈ tagKeys tags ∨ e.1 ∈ e.2 := by
  intro fuel
  induction fuel with
  | zero => intro st st' _ h; simp [scanLoopF] at h
  | succ fuel ih =>
    intro st st' hinv h
    simp only [scanLoopF] at h
    split at h
    · split at h
      · simp at h
      · simp at h
      · exact ih (by simpa using hinv) h
      · rename_i tag ts te hfind
        have hmem : tag ∈ tagKeys tags ++ st.expected := findTagF_found_mem hfind
        rw [List.mem_append] at hmem
        have hinv' : ∀ e ∈ st.trace ++ [(tag, st.expected)],
            e.1 ∈ tagKeys tags ∨ e.1 ∈ e.2 := by
          intro e he
          rcases List.mem_append.1 he with he | he
          · exact hinv e he
          · simp at he
            subst he
            exact hmem
        split at h <;> exact ih hinv' h
    · cases h
      exact hinv

/-- The outer loop's fuel of `msg.length + 1` can never run out, provided
the tag vocabulary has no empty key (true of `FORMAT_TAGS`) and no
expected close tag is empty (true initially, preserved by the loop):
every iteration strictly shortens the unscanned text. -/
theorem scanLoopF_ne_fuel {tags : List (List Char × Nat)} {maxX : Int}
    (hkeys : ([] : List Char) ∉ tagKeys tags) :
    ∀ {fuel : Nat} {st : ScanState},
      (∀ e ∈ st.expected, e ≠ []) →
      st.unused.length < fuel →
      scanLoopF tags maxX fuel st ≠ .fuel := by
  intro fuel
  induction fuel with
  | zero => omega
  | succ fuel ih =>
    intro st hexp hlen
    simp only [scanLoopF]
    split
    · rename_i hguard
      split
      · rename_i hfind
        exact absurd hfind (findTagF_ne_none (by omega))
      · simp
      · refine ih (fun e he => hexp e he) ?_
        have : st.unused ≠ [] := hguard.2
        have : 0 < st.unused.length := List.length_pos.2 this
        simpa using (by omega : (0 : Nat) < fuel)
      · rename_i tag ts te hfind
        have hmem : tag ∈ tagKeys tags ++ st.expected := findTagF_found_mem hfind
        have htag : tag ≠ [] := by
          rcases List.mem_append.1 hmem with hm | hm
          · intro he; subst he; exact hkeys hm
          · exact hexp tag hm
        have hte : 1 ≤ te := by
          rcases findTagF_found_te hfind with he | he
          · exact absurd he htag
          · exact he
        have hrest : (st.unused.drop te).length < fuel := by
          have : st.unused ≠ [] := hguard.2
          have h0 : 0 < st.unused.length := List.length_pos.2 this
          simp only [List.length_drop]
          omega
        split
        · refine ih ?_ hrest
          intro e he
          exact hexp e (List.mem_of_mem_erase he)
        · refine ih ?_ hrest
          intro e he
          rcases List.mem_append.1 he with hm | hm
          · exact hexp e hm
          · simp at hm
            subst hm
            simp
    · simp

/-! ## helper lemmas: panel geometry and redraw -/

/-- `resetSubwindow` either leaves the state alone or installs a fresh
subwindow of exactly the preferred size at the configured offsets. -/
theorem resetSubwindow_fst (s : PanelState) :
    (resetSubwindow s).1 = s ∨
      (resetSubwindow s).1 =
        { s with win := some ⟨(getPreferredSize s).1, (getPreferredSize s).2,
                              s.top, s.left⟩ } := by
  simp only [resetSubwindow]
  split
  · exact Or.inl rfl
  · split
    · exact Or.inr rfl
    · exact Or.inl rfl

/-- When the preferred height is nonzero, the state after `resetSubwindow`
has a subwindow. -/
theorem resetSubwindow_win_isSome {s : PanelState}
    (h : (getPreferredSize s).1 ≠ 0) : (resetSubwindow s).1.win.isSome := by
  simp only [resetSubwindow]
  split
  · omega
  · split
    · simp
    · rename_i hrec
      rw [Bool.not_eq_true] at hrec
      match hw : s.win with
      | some w => simp [hw]
      | none => rw [hw] at hrec; simp at hrec

/-- `getPreferredSize` only reads the parent size and the geometry fields. -/
theorem getPreferredSize_congr (t s : PanelState)
    (hp : t.parent = s.parent) (ht : t.top = s.top) (hl : t.left = s.left)
    (hh : t.height = s.height) (hw : t.width = s.width) :
    getPreferredSize t = getPreferredSize s := by
  unfold getPreferredSize
  rw [hp, ht, hl, hh, hw]

/-- the fields of the state a `redraw` returns, other than `win`, `maxY`
and `maxX`, are those of the input state. -/
theorem redraw_preserves (cb : Int → Int → Except Unit Unit)
    (acq f : Bool) (s : PanelState) (lock : Nat) :
    (redraw cb acq f s lock).st.parent = s.parent ∧
    (redraw cb acq f s lock).st.visible = s.visible ∧
    (redraw cb acq f s lock).st.top = s.top ∧
    (redraw cb acq f s lock).st.left = s.left ∧
    (redraw cb acq f s lock).st.height = s.height ∧
    (redraw cb acq f s lock).st.width = s.width ∧
    (redraw cb acq f s lock).st.paused = s.paused ∧
    (redraw cb acq f s lock).st.pauseAttr = s.pauseAttr ∧
    (redraw cb acq f s lock).st.pauseBuffer = s.pauseBuffer ∧
    (redraw cb acq f s lock).st.attrs = s.attrs ∧
    (redraw cb acq f s lock).st.pauseTime = s.pauseTime := by
  have hreset := resetSubwindow_fst s
  simp only [redraw]
  split
  · simp
  · split
    · simp
    · split
      · rcases hreset with h | h <;> rw [h] <;> simp [h]
      · split
        · rcases hreset with h | h <;> rw [h] <;> simp [h]
        · split
          · split <;> rcases hreset with h | h <;> rw [h] <;> simp [h]
          · rcases hreset with h | h <;> rw [h] <;> simp [h]

/-! ## helper lemmas: attribute dictionaries and the pause tracker -/

theorem alookup_dictSet_self {β : Type} (k : String) (v : β)
    (l : List (String × β)) : alookup k (dictSet k v l) = some v := by
  induction l with
  | nil => simp [dictSet, alookup]
  | cons p t ih =>
    obtain ⟨k', v'⟩ := p
    rw [dictSet]
    split
    · simp [alookup]
    · rename_i hne
      rw [alookup, if_neg hne]
      exact ih

theorem alookup_dictSet_ne {β : Type} {k k' : String} (v : β)
    (l : List (String × β)) (h : k' ≠ k) :
    alookup k' (dictSet k v l) = alookup k' l := by
  have hne : ¬ k = k' := fun hh => h hh.symm
  induction l with
  | nil => simp [dictSet, alookup, hne]
  | cons p t ih =>
    obtain ⟨k0, v0⟩ := p
    rw [dictSet]
    split
    · rename_i hk0
      subst hk0
      show (if k0 = k' then some v else alookup k' t)
        = (if k0 = k' then some v0 else alookup k' t)
      rw [if_neg hne, if_neg hne]
    · show (if k0 = k' then some v0 else alookup k' (dictSet k v t))
        = (if k0 = k' then some v0 else alookup k' t)
      split
      · rfl
      · exact ih

/-- After re-snapshotting every name of `l` with `f`, a name of `l` reads
back its `f`-value; other names read what the buffer had. -/
theorem alookup_foldl_dictSet (f : String → Option Int) (a : String) :
    ∀ (l : List String) (buf : List (String × Option Int)),
      alookup a (l.foldl (fun b x => dictSet x (f x) b) buf) =
        if a ∈ l then some (f a) else alookup a buf := by
  intro l
  induction l with
  | nil => simp
  | cons x t ih =>
    intro buf
    rw [List.foldl_cons, ih]
    by_cases hx : a = x
    · subst hx
      by_cases ht : a ∈ t
      · simp [ht]
      · simp [ht, alookup_dictSet_self]
    · by_cases ht : a ∈ t
      · simp [ht, List.mem_cons, hx]
      · simp [ht, List.mem_cons, hx, alookup_dictSet_ne _ _ hx]

/-- `setAttrVal` only changes `attrs`. -/
theorem setAttrVal_fields (a : String) (v : Int) (s : PanelState) :
    (setAttrVal a v s).paused = s.paused ∧
    (setAttrVal a v s).pauseAttr = s.pauseAttr ∧
    (setAttrVal a v s).pauseBuffer = s.pauseBuffer := by
  simp [setAttrVal]

theorem applyMuts_fields (ms : List (String × Int)) :
    ∀ s : PanelState,
      (applyMuts ms s).paused = s.paused ∧
      (applyMuts ms s).pauseAttr = s.pauseAttr ∧
      (applyMuts ms s).pauseBuffer = s.pauseBuffer := by
  induction ms with
  | nil => intro s; simp [applyMuts]
  | cons m t ih =>
    intro s
    have hs := ih (setAttrVal m.1 m.2 s)
    simp only [applyMuts, List.foldl_cons] at hs ⊢
    simpa [setAttrVal] using hs

/-- Unfolding of `setPaused` for a transition into pause. -/
theorem setPaused_true_eq {s : PanelState} (supp : Bool) (now : Int)
    (h : s.paused = false) :
    (setPaused true supp now s).1 =
      if supp = false then
        (redraw (fun _ _ => .ok ()) true true
          { s with pauseTime := now
                   paused := true
                   pauseBuffer := snapshotAll
                     { s with pauseTime := now, paused := true } } 0).st
      else
        { s with pauseTime := now
                 paused := true
                 pauseBuffer := snapshotAll
                   { s with pauseTime := now, paused := true } } := by
  rw [setPaused, if_pos (by simp [h])]
  rfl

/-- Unfolding of `setPaused` for a transition out of pause. -/
theorem setPaused_false_eq {s : PanelState} (supp : Bool) (now : Int)
    (h : s.paused = true) :
    (setPaused false supp now s).1 =
      if supp = false then
        (redraw (fun _ _ => .ok ()) true true { s with paused := false } 0).st
      else { s with paused := false } := by
  rw [setPaused, if_pos (by simp [h])]
  rfl

/-- What `setPaused` does when it actually transitions into pause. -/
theorem setPaused_true_fields {s : PanelState} (supp : Bool) (now : Int)
    (h : s.paused = false) :
    (setPaused true supp now s).1.paused = true ∧
    (setPaused true supp now s).1.pauseAttr = s.pauseAttr ∧
    (setPaused true supp now s).1.pauseBuffer =
      snapshotAll { s with pauseTime := now, paused := true } ∧
    (setPaused true supp now s).1.attrs = s.attrs := by
  rw [setPaused_true_eq supp now h]
  split
  · have hpre := redraw_preserves (fun _ _ => .ok ()) true true
      { s with pauseTime := now
               paused := true
               pauseBuffer := snapshotAll
                 { s with pauseTime := now, paused := true } } 0
    refine ⟨?_, ?_, ?_, ?_⟩
    · rw [hpre.2.2.2.2.2.2.1]
    · rw [hpre.2.2.2.2.2.2.2.1]
    · rw [hpre.2.2.2.2.2.2.2.2.1]
    · rw [hpre.2.2.2.2.2.2.2.2.2.1]
  · exact ⟨rfl, rfl, rfl, rfl⟩

/-- What `setPaused` does when it transitions out of pause. -/
theorem setPaused_false_fields {s : PanelState} (supp : Bool) (now : Int)
    (h : s.paused = true) :
    (setPaused false supp now s).1.paused = false ∧
    (setPaused false supp now s).1.pauseAttr = s.pauseAttr ∧
    (setPaused false supp now s).1.pauseBuffer = s.pauseBuffer ∧
    (setPaused false supp now s).1.attrs = s.attrs := by
  rw [setPaused_false_eq supp now h]
  split
  · have hpre := redraw_preserves (fun _ _ => .ok ()) true true
      { s with paused := false } 0
    refine ⟨?_, ?_, ?_, ?_⟩
    · rw [hpre.2.2.2.2.2.2.1]
    · rw [hpre.2.2.2.2.2.2.2.1]
    · rw [hpre.2.2.2.2.2.2.2.2.1]
    · rw [hpre.2.2.2.2.2.2.2.2.2.1]
  · exact ⟨rfl, rfl, rfl, rfl⟩

/-! ## helper lemmas: redraw idempotence machinery -/

/-- If the existing subwindow needs neither growth, displacement correction
nor shrinking, `resetSubwindow` leaves the state untouched. -/
theorem resetSubwindow_noRecreate {s : PanelState} {w : Win}
    (hw : s.win = some w)
    (h1 : ¬ w.maxY < (getPreferredSize s).1)
    (h2 : ¬ s.top > w.pary)
    (h3 : ¬ w.maxX > (getPreferredSize s).2)
    (h4 : ¬ w.maxY > (getPreferredSize s).1)
    (hnh : (getPreferredSize s).1 ≠ 0) :
    resetSubwindow s = (s, false) := by
  simp only [resetSubwindow]
  rw [if_neg hnh, hw]
  simp [h1, h2, h3, h4]

/-- Complete case analysis of `resetSubwindow` when the preferred height is
nonzero: either nothing to do (with the reasons), or a full recreation. -/
theorem resetSubwindow_spec {s : PanelState}
    (hnh : (getPreferredSize s).1 ≠ 0) :
    (∃ w, s.win = some w ∧
        ¬ w.maxY < (getPreferredSize s).1 ∧ ¬ s.top > w.pary ∧
        ¬ w.maxX > (getPreferredSize s).2 ∧ ¬ w.maxY > (getPreferredSize s).1 ∧
        resetSubwindow s = (s, false)) ∨
      resetSubwindow s =
        ({ s with win := some ⟨(getPreferredSize s).1, (getPreferredSize s).2,
                               s.top, s.left⟩ }, true) := by
  match hw : s.win with
  | none =>
    refine Or.inr ?_
    simp only [resetSubwindow]
    rw [if_neg hnh, hw]
    rfl
  | some w =>
    by_cases hc : w.maxY < (getPreferredSize s).1 ∨ s.top > w.pary ∨
        w.maxX > (getPreferredSize s).2 ∨ w.maxY > (getPreferredSize s).1
    · refine Or.inr ?_
      simp only [resetSubwindow]
      rw [if_neg hnh, hw]
      have hb : (decide (w.maxY < (getPreferredSize s).1)
          || decide (s.top > w.pary)
          || decide (w.maxX > (getPreferredSize s).2)
          || decide (w.maxY > (getPreferredSize s).1)) = true := by
        rcases hc with hc | hc | hc | hc <;> simp [hc]
      simp only [hb, if_true]
    · rw [not_or, not_or, not_or] at hc
      obtain ⟨h1, h2, h3, h4⟩ := hc
      exact Or.inl ⟨w, rfl, h1, h2, h3, h4,
        resetSubwindow_noRecreate hw h1 h2 h3 h4 hnh⟩

/-- `redraw` on an invisible panel returns the state unchanged. -/
theorem redraw_st_invisible {s : PanelState} (hvis : s.visible = false)
    (cb : Int → Int → Except Unit Unit) (acq f : Bool) (lock : Nat) :
    redraw cb acq f s lock = ⟨s, lock, false, .ok ()⟩ := by
  simp only [redraw]
  rw [if_pos hvis]

/-- `redraw` when the panel is completely outside its parent. -/
theorem redraw_st_outside {s : PanelState} (hvis : ¬ s.visible = false)
    (hnh : (getPreferredSize s).1 = 0)
    (cb : Int → Int → Except Unit Unit) (acq f : Bool) (lock : Nat) :
    redraw cb acq f s lock = ⟨{ s with win := none }, lock, false, .ok ()⟩ := by
  simp only [redraw]
  rw [if_neg hvis, if_pos hnh]

/-- On the main path, the state `redraw` returns is the reset state with
the last-observed dimensions synchronized to the subwindow. -/
theorem redraw_st_main {s : PanelState} (hvis : ¬ s.visible = false)
    (hnh : ¬ (getPreferredSize s).1 = 0)
    (cb : Int → Int → Except Unit Unit) (acq f : Bool) (lock : Nat) :
    ∃ w, (resetSubwindow s).1.win = some w ∧
      (redraw cb acq f s lock).st =
        { (resetSubwindow s).1 with maxY := w.maxY, maxX := w.maxX } := by
  obtain ⟨w, hw⟩ := Option.isSome_iff_exists.1 (resetSubwindow_win_isSome hnh)
  refine ⟨w, hw, ?_⟩
  simp only [redraw]
  rw [if_neg hvis, if_neg hnh, hw]
  split
  · rename_i heq
    simp at heq
  · rename_i w2 heq
    injection heq with hww
    subst hww
    split
    · rfl
    · split
      · split <;> rfl
      · rfl

/-- A state on which a non-forced `redraw` performs no content draw:
whenever it is visible with a nonzero preferred height, its subwindow
needs no recreation and its last-observed dimensions are current. -/
def noForce (s : PanelState) : Prop :=
  s.visible = true → (getPreferredSize s).1 ≠ 0 →
    ∃ w, s.win = some w ∧
      ¬ w.maxY < (getPreferredSize s).1 ∧
      ¬ s.top > w.pary ∧
      ¬ w.maxX > (getPreferredSize s).2 ∧
      ¬ w.maxY > (getPreferredSize s).1 ∧
      s.maxY = w.maxY ∧ s.maxX = w.maxX

/-- A non-forced `redraw` of a `noForce` state never invokes `draw`. -/
theorem redraw_noForce_drew (cb : Int → Int → Except Unit Unit) (acq : Bool)
    (s : PanelState) (lock : Nat) (h : noForce s) :
    (redraw cb acq false s lock).drew = false := by
  by_cases hvis : s.visible = false
  · rw [redraw_st_invisible hvis cb acq false lock]
  · by_cases hnh : (getPreferredSize s).1 = 0
    · rw [redraw_st_outside hvis hnh cb acq false lock]
    · have hv : s.visible = true := by
        revert hvis; cases s.visible <;> simp
      obtain ⟨w, hw, h1, h2, h3, h4, h5, h6⟩ := h hv hnh
      have hrs := resetSubwindow_noRecreate hw h1 h2 h3 h4 hnh
      simp only [redraw]
      rw [if_neg hvis, if_neg hnh, hrs]
      simp only [hw, h5, h6]
      simp only [Bool.false_or, Bool.or_self, decide_not]
      split
      · rfl
      · simp

/-- Every state `redraw` returns satisfies `noForce`: the second of two
back-to-back redraws never has anything forcing a content draw. -/
theorem redraw_noForce_after (cb : Int → Int → Except Unit Unit)
    (acq f : Bool) (s : PanelState) (lock : Nat) :
    noForce (redraw cb acq f s lock).st := by
  by_cases hvis : s.visible = false
  · rw [redraw_st_invisible hvis cb acq f lock]
    intro hv _
    rw [hv] at hvis
    cases hvis
  · by_cases hnh : (getPreferredSize s).1 = 0
    · rw [redraw_st_outside hvis hnh cb acq f lock]
      intro _ hne
      refine absurd ?_ hne
      rw [getPreferredSize_congr { s with win := none } s rfl rfl rfl rfl rfl]
      exact hnh
    · obtain ⟨w, hw, hst⟩ := redraw_st_main hvis hnh cb acq f lock
      rw [hst]
      rcases resetSubwindow_spec hnh with
        ⟨w', hw', h1, h2, h3, h4, heq⟩ | heq
      · rw [heq] at hw ⊢
        have hww : w = w' := by
          simp only [hw'] at hw
          exact (Option.some.injEq .. ▸ hw).symm
        subst hww
        intro _ _
        refine ⟨w, hw', ?_, ?_, ?_, ?_, rfl, rfl⟩
        · show ¬ w.maxY < (getPreferredSize s).1
          exact h1
        · show ¬ s.top > w.pary
          exact h2
        · show ¬ w.maxX > (getPreferredSize s).2
          exact h3
        · show ¬ w.maxY > (getPreferredSize s).1
          exact h4
      · rw [heq] at hw ⊢
        have hwW : some (⟨(getPreferredSize s).1, (getPreferredSize s).2,
            s.top, s.left⟩ : Win) = some w := hw
        rw [Option.some.injEq] at hwW
        subst hwW
        intro _ _
        refine ⟨_, rfl, ?_, ?_, ?_, ?_, rfl, rfl⟩
        · show ¬ (getPreferredSize s).1 < (getPreferredSize s).1
          omega
        · show ¬ s.top > s.top
          omega
        · show ¬ (getPreferredSize s).2 > (getPreferredSize s).2
          omega
        · show ¬ (getPreferredSize s).1 > (getPreferredSize s).1
          omega

/-! ## claim theorems -/

/-- A panel state whose subwindow is displaced downward: the handle sits at
parent row 5 while the configured top is 3, with dimensions exactly equal
to the preferred size. -/
def dispPanel : PanelState :=
  { initPanel ⟨0, 10, 10⟩ 3 (-1) (-1) with
    win := some ⟨7, 10, 5, 0⟩, maxY := 7, maxX := 10 }

/-- **C2, counterexample.**  The claim says a mismatch of the handle's row
offset against the configured top *in either direction* forces recreation.
In `dispPanel` the handle's row offset (5) differs from the configured top
(3), the preferred height is nonzero, yet `_resetSubwindow` keeps the old
handle and reports no recreation: the code only recreates when the
configured top exceeds the handle's offset (`self.top > self.win.getparyx()[0]`). -/
theorem resetSubwindow_displacement_cex :
    dispPanel.win = some ⟨7, 10, 5, 0⟩ ∧
    dispPanel.top = 3 ∧ (5 : Int) ≠ 3 ∧
    (getPreferredSize dispPanel).1 ≠ 0 ∧
    resetSubwindow dispPanel = (dispPanel, false) := by decide

/-- **C2, amended.**  On a redraw of a panel whose subwindow handle is
present, if the panel's configured top strictly exceeds the handle's
parent-relative row offset (the one displacement direction the code
tests), then the subwindow is recreated: a brand-new subwindow is
requested at the preferred size and the configured top/left, and the old
handle is discarded. -/
theorem resetSubwindow_displaced_recreates (s : PanelState) (w : Win)
    (hw : s.win = some w) (hnh : (getPreferredSize s).1 ≠ 0)
    (hdisp : s.top > w.pary) :
    resetSubwindow s =
      ({ s with win := some ⟨(getPreferredSize s).1, (getPreferredSize s).2,
                             s.top, s.left⟩ }, true) := by
  simp only [resetSubwindow]
  rw [if_neg hnh, hw]
  have hb : (decide (w.maxY < (getPreferredSize s).1)
      || decide (s.top > w.pary)
      || decide (w.maxX > (getPreferredSize s).2)
      || decide (w.maxY > (getPreferredSize s).1)) = true := by
    simp [hdisp]
  simp only [hb, if_true]

/-- A panel state whose subwindow is displaced upward (handle at parent
row 1, configured top 3). -/
def dispPanelUp : PanelState :=
  { initPanel ⟨0, 10, 10⟩ 3 (-1) (-1) with
    win := some ⟨7, 10, 1, 0⟩, maxY := 7, maxX := 10 }

/-- Witness for the amended C2 at a concrete displaced panel. -/
theorem resetSubwindow_displaced_recreates_witness :
    resetSubwindow dispPanelUp =
      ({ dispPanelUp with
          win := some ⟨(getPreferredSize dispPanelUp).1,
                       (getPreferredSize dispPanelUp).2,
                       dispPanelUp.top, dispPanelUp.left⟩ }, true) :=
  resetSubwindow_displaced_recreates dispPanelUp ⟨7, 10, 1, 0⟩
    (by decide) (by decide) (by decide)

/-- **C6.**  Idempotence of redraw: whatever state a `redraw` leaves the
panel in, an immediately following `redraw(forceRedraw=False)` with no
intervening change performs no content draw (the `draw` callback is not
invoked; the call only refreshes).  Hence across two successive
non-forced redraws the content is drawn at most once. -/
theorem redraw_twice_draws_once (cb cb' : Int → Int → Except Unit Unit)
    (acq acq' : Bool) (s : PanelState) (lock lock' : Nat) :
    (redraw cb' acq' false (redraw cb acq false s lock).st lock').drew
      = false :=
  redraw_noForce_drew cb' acq' _ lock'
    (redraw_noForce_after cb acq false s lock)

/-- **C7.**  The Global Draw Lock is released on every exit path of
`redraw`: whatever the acquire outcome, the force flag and the result of
the content-draw callback (including a raised drawing exception), the
caller's lock hold count after `redraw` equals the count before. -/
theorem redraw_lock_balanced (cb : Int → Int → Except Unit Unit)
    (acq f : Bool) (s : PanelState) (lock : Nat) :
    (redraw cb acq f s lock).lock = lock := by
  simp only [redraw]
  split
  · rfl
  · split
    · rfl
    · split
      · rfl
      · split
        · rfl
        · split
          · split <;> simp
          · simp

/-- **C8.**  Each geometry setter is a no-op (the whole panel state,
subwindow handle included, is unchanged) when the new value equals the
current one; otherwise it updates exactly its field, nulls the subwindow
handle, and changes nothing else. -/
theorem setters_noop_or_invalidate (s : PanelState) (t l hh ww : Int)
    (p : Parent) :
    setTop t s = (if s.top = t then s else { s with top := t, win := none }) ∧
    setLeft l s = (if s.left = l then s else { s with left := l, win := none }) ∧
    setHeight hh s =
      (if s.height = hh then s else { s with height := hh, win := none }) ∧
    setWidth ww s =
      (if s.width = ww then s else { s with width := ww, win := none }) ∧
    setParent p s =
      (if s.parent = p then s else { s with parent := p, win := none }) := by
  refine ⟨?_, ?_, ?_, ?_, ?_⟩
  · by_cases hc : s.top = t <;> simp [setTop, hc]
  · by_cases hc : s.left = l <;> simp [setLeft, hc]
  · by_cases hc : s.height = hh <;> simp [setHeight, hc]
  · by_cases hc : s.width = ww <;> simp [setWidth, hc]
  · by_cases hc : s.parent = p <;> simp [setParent, hc]

/-! ## reachability invariant for the pause buffer -/

theorem setParent_pause (p : Parent) (s : PanelState) :
    (setParent p s).pauseAttr = s.pauseAttr ∧
    (setParent p s).pauseBuffer = s.pauseBuffer := by
  unfold setParent
  constructor <;> (split <;> rfl)

theorem setTop_pause (t : Int) (s : PanelState) :
    (setTop t s).pauseAttr = s.pauseAttr ∧
    (setTop t s).pauseBuffer = s.pauseBuffer := by
  unfold setTop
  constructor <;> (split <;> rfl)

theorem setLeft_pause (l : Int) (s : PanelState) :
    (setLeft l s).pauseAttr = s.pauseAttr ∧
    (setLeft l s).pauseBuffer = s.pauseBuffer := by
  unfold setLeft
  constructor <;> (split <;> rfl)

theorem setHeight_pause (hh : Int) (s : PanelState) :
    (setHeight hh s).pauseAttr = s.pauseAttr ∧
    (setHeight hh s).pauseBuffer = s.pauseBuffer := by
  unfold setHeight
  constructor <;> (split <;> rfl)

theorem setWidth_pause (ww : Int) (s : PanelState) :
    (setWidth ww s).pauseAttr = s.pauseAttr ∧
    (setWidth ww s).pauseBuffer = s.pauseBuffer := by
  unfold setWidth
  constructor <;> (split <;> rfl)

/-- `setPaused` that does not transition returns the state unchanged. -/
theorem setPaused_noop {s : PanelState} {b : Bool} (supp : Bool) (now : Int)
    (h : b = s.paused) : (setPaused b supp now s).1 = s := by
  rw [setPaused, if_neg (by simp [h])]

/-- In every reachable panel state, every tracked attribute name has an
entry in the pause buffer. -/
theorem reachable_buffer_inv {s : PanelState} (h : Reachable s) :
    ∀ a ∈ s.pauseAttr, (alookup a s.pauseBuffer).isSome = true := by
  induction h with
  | init parent top height width =>
    intro a ha
    simp [initPanel] at ha
  | pauseAttrStep s a hs ih =>
    intro b hb
    simp only [setPauseAttr] at hb ⊢
    rcases List.mem_append.1 hb with hb | hb
    · by_cases hba : b = a
      · subst hba
        rw [alookup_dictSet_self]
        rfl
      · rw [alookup_dictSet_ne _ _ hba]
        exact ih b hb
    · simp at hb
      subst hb
      rw [alookup_dictSet_self]
      rfl
  | pausedStep s b supp now hs ih =>
    intro c hc
    by_cases htrans : b = s.paused
    · rw [setPaused_noop supp now htrans] at hc ⊢
      exact ih c hc
    · cases b with
      | true =>
        have hf : s.paused = false := by
          revert htrans; cases s.paused <;> simp
        obtain ⟨hp, ha, hbuf, hat⟩ := setPaused_true_fields supp now hf
        rw [ha] at hc
        rw [hbuf]
        unfold snapshotAll
        rw [alookup_foldl_dictSet]
        have hcc : c ∈ ({ s with pauseTime := now, paused := true }
            : PanelState).pauseAttr := hc
        rw [if_pos hcc]
        rfl
      | false =>
        have ht : s.paused = true := by
          revert htrans; cases s.paused <;> simp
        obtain ⟨hp, ha, hbuf, hat⟩ := setPaused_false_fields supp now ht
        rw [ha] at hc
        rw [hbuf]
        exact ih c hc
  | attrStep s a v hs ih =>
    intro c hc
    simp only [setAttrVal] at hc ⊢
    exact ih c hc
  | parentStep s p hs ih =>
    intro c hc
    rw [(setParent_pause p s).1] at hc
    rw [(setParent_pause p s).2]
    exact ih c hc
  | visibleStep s b hs ih =>
    intro c hc
    exact ih c hc
  | topStep s t hs ih =>
    intro c hc
    rw [(setTop_pause t s).1] at hc
    rw [(setTop_pause t s).2]
    exact ih c hc
  | leftStep s l hs ih =>
    intro c hc
    rw [(setLeft_pause l s).1] at hc
    rw [(setLeft_pause l s).2]
    exact ih c hc
  | heightStep s hh hs ih =>
    intro c hc
    rw [(setHeight_pause hh s).1] at hc
    rw [(setHeight_pause hh s).2]
    exact ih c hc
  | widthStep s ww hs ih =>
    intro c hc
    rw [(setWidth_pause ww s).1] at hc
    rw [(setWidth_pause ww s).2]
    exact ih c hc
  | redrawStep s cb acq f lock hs ih =>
    intro c hc
    have hpre := redraw_preserves cb acq f s lock
    rw [hpre.2.2.2.2.2.2.2.1] at hc
    rw [hpre.2.2.2.2.2.2.2.2.1]
    exact ih c hc

/-- **C10.**  Implicit invariant: in every reachable panel state, every
name in the tracked-attribute list has an entry in the pause buffer
(`setPauseAttr` snapshots immediately and pausing re-snapshots every
tracked name), so `getAttr` on a tracked attribute while paused always
returns a buffered value and never fails with a missing key. -/
theorem reachable_pause_buffer_total {s : PanelState} (h : Reachable s) :
    ∀ a, a ∈ s.pauseAttr →
      (alookup a s.pauseBuffer).isSome = true ∧
      (s.paused = true → ∃ v, getAttr a s = .ok v) := by
  intro a ha
  have hb := reachable_buffer_inv h a ha
  refine ⟨hb, fun hp => ?_⟩
  obtain ⟨v, hv⟩ := Option.isSome_iff_exists.1 hb
  refine ⟨v, ?_⟩
  rw [getAttr, if_pos ha, if_pos hp, hv]

/-- Witness for C10 at a concrete reachable state. -/
theorem reachable_pause_buffer_total_witness :
    (alookup "x"
      (setPauseAttr "x" (initPanel ⟨0, 5, 5⟩ 0 (-1) (-1))).pauseBuffer).isSome
        = true ∧
    ((setPauseAttr "x" (initPanel ⟨0, 5, 5⟩ 0 (-1) (-1))).paused = true →
      ∃ v, getAttr "x" (setPauseAttr "x" (initPanel ⟨0, 5, 5⟩ 0 (-1) (-1)))
        = .ok v) :=
  reachable_pause_buffer_total
    (Reachable.pauseAttrStep _ "x" (Reachable.init ⟨0, 5, 5⟩ 0 (-1) (-1)))
    "x" (by decide)

theorem setAttrVal_attrs (a : String) (v : Int) (s : PanelState) :
    (setAttrVal a v s).attrs = dictSet a v s.attrs := rfl

/-- **C5.**  Pause snapshot law: let `A` be an attribute tracked via
`setPauseAttr` currently holding `v1`, on an unpaused panel.  After
`setPaused(True)` and a mutation of `A` to `v2`, `getAttr A` keeps
returning `v1` for as long as the panel stays paused (any further
sequence `ms` of attribute mutations included), and returns `v2`
immediately after `setPaused(False)`.  An attribute never tracked always
reads as `None`. -/
theorem pause_snapshot_law (s : PanelState) (A : String) (v1 v2 : Int)
    (supp supp' : Bool) (now now' : Int) (ms : List (String × Int))
    (hp : s.paused = false) (hA : A ∈ s.pauseAttr)
    (hv1 : alookup A s.attrs = some v1) :
    getAttr A (applyMuts ms (setAttrVal A v2 (setPaused true supp now s).1))
        = .ok (some v1) ∧
    getAttr A (setPaused false supp' now'
        (setAttrVal A v2 (setPaused true supp now s).1)).1 = .ok (some v2) ∧
    (∀ (t : PanelState) (B : String), B ∉ t.pauseAttr → getAttr B t = .ok none) := by
  obtain ⟨hp1, ha1, hb1, hat1⟩ := setPaused_true_fields supp now hp
  have h2 := setAttrVal_fields A v2 (setPaused true supp now s).1
  have hm := applyMuts_fields ms (setAttrVal A v2 (setPaused true supp now s).1)
  refine ⟨?_, ?_, ?_⟩
  · have hmem : A ∈ (applyMuts ms
        (setAttrVal A v2 (setPaused true supp now s).1)).pauseAttr := by
      rw [hm.2.1, h2.2.1, ha1]
      exact hA
    have hpaused : (applyMuts ms
        (setAttrVal A v2 (setPaused true supp now s).1)).paused = true := by
      rw [hm.1, h2.1, hp1]
    have hbuf : alookup A (applyMuts ms
        (setAttrVal A v2 (setPaused true supp now s).1)).pauseBuffer
          = some (some v1) := by
      rw [hm.2.2, h2.2.2, hb1]
      unfold snapshotAll
      rw [alookup_foldl_dictSet]
      have hAs : A ∈ ({ s with pauseTime := now, paused := true }
          : PanelState).pauseAttr := hA
      rw [if_pos hAs]
      show some (alookup A s.attrs) = some (some v1)
      rw [hv1]
    rw [getAttr, if_pos hmem, if_pos hpaused, hbuf]
  · have hp2 : (setAttrVal A v2 (setPaused true supp now s).1).paused = true := by
      rw [h2.1, hp1]
    obtain ⟨hp3, ha3, hb3, hat3⟩ := setPaused_false_fields supp' now' hp2
    have hmem : A ∈ (setPaused false supp' now'
        (setAttrVal A v2 (setPaused true supp now s).1)).1.pauseAttr := by
      rw [ha3, h2.2.1, ha1]
      exact hA
    rw [getAttr, if_pos hmem, if_neg (by rw [hp3]; decide)]
    rw [hat3, setAttrVal_attrs, alookup_dictSet_self]
  · intro t B hB
    rw [getAttr, if_neg hB]

/-- Witness for C5 at a concrete tracked attribute. -/
theorem pause_snapshot_law_witness :
    getAttr "v" (applyMuts [("w", 9)] (setAttrVal "v" 2 (setPaused true true 7
        (setAttrVal "v" 1 (setPauseAttr "v"
          (initPanel ⟨0, 5, 5⟩ 0 (-1) (-1))))).1)) = .ok (some 1) ∧
    getAttr "v" (setPaused false true 8
        (setAttrVal "v" 2 (setPaused true true 7
          (setAttrVal "v" 1 (setPauseAttr "v"
            (initPanel ⟨0, 5, 5⟩ 0 (-1) (-1))))).1)).1 = .ok (some 2) ∧
    (∀ (t : PanelState) (B : String), B ∉ t.pauseAttr → getAttr B t = .ok none) :=
  pause_snapshot_law
    (setAttrVal "v" 1 (setPauseAttr "v" (initPanel ⟨0, 5, 5⟩ 0 (-1) (-1))))
    "v" 1 2 true true 7 8 [("w", 9)]
    (by decide) (by decide) (by decide)

/-! ## claim theorems on the markup scanner -/

theorem addfstr_ok_fin {tags : List (List Char × Nat)} {maxY maxX y x : Int}
    {hw : Bool} {msg : List Char} {st : ScanState}
    (h : addfstr tags maxY maxX hw y x msg = .ok st) :
    scanLoopF tags maxX (msg.length + 1) (initScan x msg) = .fin st := by
  rw [addfstr] at h
  split at h
  · split at h
    · simp at h
    · simp at h
    · rename_i st' hscan
      split at h
      · simp at h
      · simp only [AddfstrRes.ok.injEq] at h
        subst h
        exact hscan
  · simp at h

theorem addfstr_err_fin {tags : List (List Char × Nat)} {maxY maxX y x : Int}
    {hw : Bool} {msg : List Char} {es : List (List Char)} {st : ScanState}
    (h : addfstr tags maxY maxX hw y x msg = .err es st) :
    scanLoopF tags maxX (msg.length + 1) (initScan x msg) = .fin st ∧
      st.unused = [] ∧ st.expected = es ∧ es ≠ [] := by
  rw [addfstr] at h
  split at h
  · split at h
    · simp at h
    · simp at h
    · rename_i st' hscan
      split at h
      · rename_i hcond
        simp only [AddfstrRes.err.injEq] at h
        obtain ⟨h1, h2⟩ := h
        subst h2
        subst h1
        exact ⟨hscan, hcond.2, rfl, hcond.1⟩
      · simp at h
  · simp at h

/-- **C3.**  `addfstr`, called with a present handle and an in-bounds row,
raises an unclosed-tag `ValueError` if and only if the scan consumed the
whole input while open tags remained unclosed; the error carries exactly
the remaining expected close tags, in open order (the `expectedCloseTags`
stack).  In particular a scan that stops early — which can only happen
because the cursor ran to or past the drawable width — never errors, even
with unclosed tags. -/
theorem addfstr_error_iff_unclosed_at_end (maxY maxX y x : Int)
    (msg : List Char) (hy : maxY > y) :
    (∀ es st, addfstr FORMAT_TAGS maxY maxX true y x msg = .err es st ↔
      (scanLoopF FORMAT_TAGS maxX (msg.length + 1) (initScan x msg) = .fin st ∧
        st.unused = [] ∧ st.expected = es ∧ es ≠ [])) ∧
    (∀ st, scanLoopF FORMAT_TAGS maxX (msg.length + 1) (initScan x msg)
        = .fin st →
      st.unused ≠ [] →
      addfstr FORMAT_TAGS maxY maxX true y x msg = .ok st ∧ ¬ maxX > st.x) := by
  constructor
  · intro es st
    constructor
    · exact addfstr_err_fin
    · rintro ⟨hscan, hu, hes, hne⟩
      rw [addfstr, if_pos ⟨rfl, hy⟩, hscan]
      show (if st.expected ≠ [] ∧ st.unused = [] then
          AddfstrRes.err st.expected st else AddfstrRes.ok st)
        = AddfstrRes.err es st
      rw [if_pos ⟨by rw [hes]; exact hne, hu⟩]
      rw [hes]
  · intro st hscan hune
    have hg := scanLoopF_fin_guard hscan
    have hx : ¬ maxX > st.x := fun hgt => hg ⟨hgt, hune⟩
    refine ⟨?_, hx⟩
    rw [addfstr, if_pos ⟨rfl, hy⟩, hscan]
    show (if st.expected ≠ [] ∧ st.unused = [] then
        AddfstrRes.err st.expected st else AddfstrRes.ok st)
      = AddfstrRes.ok st
    rw [if_neg (fun hcon => hune hcon.2)]

/-- Witness for C3: `addfstr` on `"<b>hi"` at width 10 errors with exactly
the unclosed close tag `"</b>"`. -/
theorem addfstr_error_iff_unclosed_at_end_witness :
    addfstr FORMAT_TAGS 1 10 true 0 0 "<b>hi".data =
      .err ["</b>".data]
        { x := 2, formatting := [A_NORMAL, A_BOLD],
          expected := ["</b>".data], unused := [],
          draws := [(0, [], A_NORMAL), (0, "hi".data, A_BOLD)],
          trace := [("<b>".data, [])] } :=
  ((addfstr_error_iff_unclosed_at_end 1 10 0 0 "<b>hi".data
      (by norm_num)).1 ["</b>".data]
      { x := 2, formatting := [A_NORMAL, A_BOLD],
        expected := ["</b>".data], unused := [],
        draws := [(0, [], A_NORMAL), (0, "hi".data, A_BOLD)],
        trace := [("<b>".data, [])] }).mpr
    ⟨by decide, by decide, by decide, by decide⟩

/-- **C1, counterexample.**  The claim says an angle-bracket span is
consumed only when it is an open tag of the vocabulary or the
*top-expected* (most recently opened, not yet closed) close tag.  Scanning
`"<b><u>x</b>y</u>"`, the span `"</b>"` is consumed while the expected
close-tag stack is `["</b>", "</u>"]`: it is not an open tag and it is not
the top of that stack (`"</u>"` is) — the code accepts a close tag for
*any* currently open tag, not just the innermost one. -/
theorem addfstr_top_close_only_cex :
    (("</b>".data, ["</b>".data, "</u>".data]) ∈
      addfstrTrace FORMAT_TAGS 5 40 true 0 0 "<b><u>x</b>y</u>".data) ∧
    "</b>".data ∉ tagKeys FORMAT_TAGS ∧
    ["</b>".data, "</u>".data].getLast? ≠ some "</b>".data := by decide

/-- **C1, amended.**  Scanning left to right, an angle-bracket span is
consumed as a tag only if it is an open tag from the fixed vocabulary
(`FORMAT_TAGS`) or it is among the currently expected close tags (a close
tag for *any* open, not yet closed tag); every other angle-bracket span is
treated as literal text and skipped over.  Quantified over every input
string and every prefix position of the scan (each trace entry pairs the
consumed tag with the expected-close stack at that point). -/
theorem addfstr_consumed_tag_in_vocab_or_open (maxY maxX y x : Int)
    (hw : Bool) (msg tg : List Char) (ctx : List (List Char))
    (hmem : (tg, ctx) ∈ addfstrTrace FORMAT_TAGS maxY maxX hw y x msg) :
    tg ∈ tagKeys FORMAT_TAGS ∨ tg ∈ ctx := by
  unfold addfstrTrace at hmem
  split at hmem
  · rename_i st heq
    have hfin := addfstr_ok_fin heq
    have hinv := scanLoopF_trace_inv (by simp [initScan]) hfin
    exact hinv (tg, ctx) hmem
  · rename_i es st heq
    have hfin := (addfstr_err_fin heq).1
    have hinv := scanLoopF_trace_inv (by simp [initScan]) hfin
    exact hinv (tg, ctx) hmem
  · simp at hmem

/-- Witness for the amended C1: the close tag `"</b>"` consumed while
scanning `"<b>x</b>"` is among the expected close tags of that moment. -/
theorem addfstr_consumed_tag_in_vocab_or_open_witness :
    "</b>".data ∈ tagKeys FORMAT_TAGS ∨ "</b>".data ∈ ["</b>".data] :=
  addfstr_consumed_tag_in_vocab_or_open 5 30 0 0 true "<b>x</b>".data
    "</b>".data ["</b>".data] (by decide)

/-- **C9, counterexample.**  With exactly 2 rows available (`maxY = 2`,
`drawTop = 0`, default `drawBottom`), viewport at the very top
(`top = 0`, `bottom = 1`) of a list of `size = 2`, the claim demands the
slider to include the top track row; but the clamp
`min(sliderTop, scrollbarHeight - sliderSize - 2)` drives `sliderTop` to
`-1` on the track of height 1 and no slider cell is drawn at all. -/
theorem addScrollBar_top_boundary_cex :
    addScrollBar 2 5 0 1 2 0 (-1) = [] ∧
    (0 : Int) ≤ 0 ∧ (0 : Int) ≤ 1 ∧ (1 : Int) ≤ 2 ∧ (0 : Int) < 2 ∧
    (2 : Int) ≤ 2 - 0 ∧ (0 : Int) < 5 := by decide

theorem mem_filterMap_range {b : Int} (f : Nat → Option Int) (n i : Nat)
    (hi : i < n) (hf : f i = some b) : b ∈ (List.range n).filterMap f :=
  List.mem_filterMap.mpr ⟨i, List.mem_range.mpr hi, hf⟩

/-- **C9, amended.**  For every `addScrollBar` call with
`0 ≤ top ≤ bottom ≤ size`, `size > 0`, at least 2 rows available and a
drawable column (`maxX > 0`), writing `sbH` for the resolved track height
(`drawBottom - drawTop`): if `top = 0` and the track has height at least
2, the slider span includes the top row of the track; if `bottom = size`
(and the track is nonempty), the slider span includes the bottom row of
the track, with no rounding gap from the integer division.  (At track
height exactly 1 the `top = 0` part fails — see the counterexample.) -/
theorem addScrollBar_boundary
    (maxY maxX top bottom size drawTop drawBottomArg sbH : Int)
    (h0 : 0 ≤ top) (h1 : top ≤ bottom) (h2 : bottom ≤ size) (h3 : 0 < size)
    (h4 : 2 ≤ maxY - drawTop) (h5 : 0 < maxX)
    (hsb : sbH = (if drawBottomArg = -1 then maxY - 1
        else min drawBottomArg (maxY - 1)) - drawTop) :
    (top = 0 → 2 ≤ sbH →
      drawTop ∈ addScrollBar maxY maxX top bottom size drawTop drawBottomArg) ∧
    (bottom = size → 1 ≤ sbH →
      drawTop + sbH - 1
        ∈ addScrollBar maxY maxX top bottom size drawTop drawBottomArg) := by
  have hnr : ¬ maxY - drawTop < 2 := by omega
  have hsz : size ≠ 0 := by omega
  have hD : (if drawBottomArg = -1 then maxY - 1
      else min drawBottomArg (maxY - 1)) ≤ maxY - 1 := by
    split
    · omega
    · exact min_le_right _ _
  have hrow : sbH + drawTop ≤ maxY - 1 := by omega
  simp only [addScrollBar]
  rw [if_neg hnr, ← hsb]
  constructor
  · intro ht0 hH2
    subst ht0
    have hST0 : (sbH * 0).fdiv size = 0 := by
      rw [Int.mul_zero, Int.zero_fdiv]
    by_cases hbs : bottom = size
    · have hSS : (sbH * (bottom - 0)).fdiv size = sbH := by
        rw [hbs, Int.sub_zero, Int.mul_fdiv_cancel _ hsz]
      refine mem_filterMap_range _ _ 0 ?_ ?_
      · omega
      rw [hST0, hSS]
      simp only [hbs]
      norm_num
      intro hcon
      have := hcon (by omega) h5
      omega
    · have hSS0 : 0 ≤ (sbH * (bottom - 0)).fdiv size :=
        Int.fdiv_nonneg (mul_nonneg (by omega) (by omega)) (by omega)
      refine mem_filterMap_range _ _ 0 ?_ ?_
      · omega
      rw [hST0]
      norm_num [hbs]
      norm_num at hSS0
      intro hcon
      have hc1 : 0 ≤ 0 ⊓ (sbH - (sbH * bottom).fdiv size - 2)
          + (sbH * bottom).fdiv size := by
        rcases le_total (0 : Int) (sbH - (sbH * bottom).fdiv size - 2) with hm | hm
        · rw [min_eq_left hm]
          omega
        · rw [min_eq_right hm]
          omega
      have := hcon hc1 h5
      omega
  · intro hbs hH1
    have hSS0 : 0 ≤ (sbH * (bottom - top)).fdiv size :=
      Int.fdiv_nonneg (mul_nonneg (by omega) (by omega)) (by omega)
    refine mem_filterMap_range _ _ (sbH - 1).toNat ?_ ?_
    · omega
    have hiz : (((sbH - 1).toNat : Nat) : Int) = sbH - 1 := by omega
    rw [hiz]
    norm_num [hbs]
    rw [hbs] at hSS0
    exact ⟨⟨hSS0, by omega, h5, by omega⟩, by omega⟩

/-- Witness for the amended C9 on a concrete call: viewport `[0, 4)` of a
4-element list on a 5-row track touches the top row, and since
`bottom = size` it also touches the bottom row. -/
theorem addScrollBar_boundary_witness :
    ((0 : Int) ∈ addScrollBar 6 3 0 4 4 0 (-1)) ∧
    ((0 : Int) + 5 - 1 ∈ addScrollBar 6 3 0 4 4 0 (-1)) :=
  ⟨(addScrollBar_boundary 6 3 0 4 4 0 (-1) 5 (by norm_num) (by norm_num)
      (by norm_num) (by norm_num) (by norm_num) (by norm_num)
      (by norm_num)).1 rfl (by norm_num),
   (addScrollBar_boundary 6 3 0 4 4 0 (-1) 5 (by norm_num) (by norm_num)
      (by norm_num) (by norm_num) (by norm_num) (by norm_num)
      (by norm_num)).2 rfl (by norm_num)⟩

/-! ## the worked `addfstr` example: `"<b>hi</b> there"` -/

/-- scanner state after consuming the opening `<b>`. -/
def exScan1 : ScanState :=
  { x := 0, formatting := [A_NORMAL, A_BOLD], expected := [['<','/','b','>']],
    unused := ['h','i','<','/','b','>',' ','t','h','e','r','e'],
    draws := [(0, [], A_NORMAL)], trace := [(['<','b','>'], [])] }

/-- scanner state after drawing `"hi"` bold and consuming `</b>`. -/
def exScan2 : ScanState :=
  { x := 2, formatting := [A_NORMAL], expected := [],
    unused := [' ','t','h','e','r','e'],
    draws := [(0, [], A_NORMAL), (0, ['h','i'], A_BOLD)],
    trace := [(['<','b','>'], []), (['<','/','b','>'], [['<','/','b','>']])] }

/-- final scanner state: `" there"` drawn with the normal attribute. -/
def exScan3 : ScanState :=
  { x := 8, formatting := [A_NORMAL], expected := [], unused := [],
    draws := [(0, [], A_NORMAL), (0, ['h','i'], A_BOLD),
              (2, [' ','t','h','e','r','e'], A_NORMAL)],
    trace := [(['<','b','>'], []), (['<','/','b','>'], [['<','/','b','>']])] }

theorem exScanStep1 (maxX : Int) (h1 : maxX > 0) :
    scanLoopF FORMAT_TAGS maxX 16 (initScan 0 "<b>hi</b> there".data)
      = scanLoopF FORMAT_TAGS maxX 15 exScan1 := by
  have hf : findTagF
      (tagKeys FORMAT_TAGS ++ (initScan 0 "<b>hi</b> there".data).expected)
      (initScan 0 "<b>hi</b> there".data).unused
      ((initScan 0 "<b>hi</b> there".data).unused.length + 1) 0
      = some (.found ['<','b','>'] 0 3) := by decide
  rw [scanLoopF, if_pos ⟨h1, by decide⟩, hf]
  simp only []
  rw [if_neg (by decide)]
  congr 1
  simp only [initScan, List.take_zero, List.take_nil]
  decide

theorem exScanStep2 (maxX : Int) (h1 : maxX > 0)
    (hc : (2 : Nat) ≤ (maxX - 0 - 1).toNat) :
    scanLoopF FORMAT_TAGS maxX 15 exScan1
      = scanLoopF FORMAT_TAGS maxX 14 exScan2 := by
  have hf : findTagF (tagKeys FORMAT_TAGS ++ exScan1.expected) exScan1.unused
      (exScan1.unused.length + 1) 0
      = some (.found ['<','/','b','>'] 2 6) := by decide
  rw [scanLoopF, if_pos ⟨h1, by decide⟩, hf]
  simp only []
  rw [if_pos (by decide)]
  congr 1
  have htake : List.take (maxX - exScan1.x - 1).toNat (List.take 2 exScan1.unused)
      = ['h', 'i'] := by
    rw [show List.take 2 exScan1.unused = ['h', 'i'] from by decide]
    exact List.take_of_length_le hc
  rw [htake]
  decide

theorem exScanStep3 (maxX : Int) (h2 : maxX > 2)
    (hc : (6 : Nat) ≤ (maxX - 2 - 1).toNat) :
    scanLoopF FORMAT_TAGS maxX 14 exScan2
      = scanLoopF FORMAT_TAGS maxX 13 exScan3 := by
  have hf : findTagF (tagKeys FORMAT_TAGS ++ exScan2.expected) exScan2.unused
      (exScan2.unused.length + 1) 0 = some .noTag := by decide
  rw [scanLoopF, if_pos ⟨h2, by decide⟩, hf]
  simp only []
  congr 1
  have htake : List.take (maxX - exScan2.x - 1).toNat exScan2.unused
      = [' ', 't', 'h', 'e', 'r', 'e'] :=
    List.take_of_length_le hc
  rw [htake]
  decide

theorem exScanStep4 (maxX : Int) :
    scanLoopF FORMAT_TAGS maxX 13 exScan3 = .fin exScan3 := by
  rw [scanLoopF, if_neg (fun hcon => hcon.2 (by decide))]

/-- **C4, counterexample.**  The claim puts the final cursor of
`addfstr "<b>hi</b> there"` at position 9; the cursor advances by the
lengths of the drawn segments (`"hi"` and `" there"`, 8 characters
total), so at drawable width 20 (an instance of "width ≥ 20") the cursor
ends at 8, not 9. -/
theorem addfstr_example_cursor_cex :
    addfstrFinalX FORMAT_TAGS 1 21 true 0 0 "<b>hi</b> there".data = some 8 ∧
    (8 : Int) ≠ 9 := by decide

/-- **C4, amended.**  `addfstr` on `"<b>hi</b> there"` at any drawable
width ≥ 20 (actual width `maxX`, starting cursor `x = 0`) draws `"hi"`
with the bold attribute and then `" there"` with the normal attribute
(preceded by one zero-length write), and the cursor ends at position 8. -/
theorem addfstr_example_bold_hi_there (maxX : Int) (h : 20 ≤ maxX - 1) :
    addfstr FORMAT_TAGS 1 maxX true 0 0 "<b>hi</b> there".data =
      .ok { x := 8, formatting := [A_NORMAL], expected := [], unused := [],
            draws := [(0, [], A_NORMAL), (0, "hi".data, A_BOLD),
                      (2, " there".data, A_NORMAL)],
            trace := [("<b>".data, []), ("</b>".data, ["</b>".data])] } := by
  rw [addfstr, if_pos ⟨rfl, by norm_num⟩,
    show ("<b>hi</b> there".data.length + 1) = 16 from by decide,
    exScanStep1 maxX (by omega), exScanStep2 maxX (by omega) (by omega),
    exScanStep3 maxX (by omega) (by omega), exScanStep4 maxX]
  decide

/-- Witness for the amended C4 at actual width 21 (drawable width 20). -/
theorem addfstr_example_bold_hi_there_witness :
    addfstr FORMAT_TAGS 1 21 true 0 0 "<b>hi</b> there".data =
      .ok { x := 8, formatting := [A_NORMAL], expected := [], unused := [],
            draws := [(0, [], A_NORMAL), (0, "hi".data, A_BOLD),
                      (2, " there".data, A_NORMAL)],
            trace := [("<b>".data, []), ("</b>".data, ["</b>".data])] } :=
  addfstr_example_bold_hi_there 21 (by norm_num)

end NyxPanel
